import Mathlib

/-!
Verification of `create_shared_mailbox.py`: a CLI utility that creates a
shared mailbox through an admin HTTP API and bulk-assigns role-based access
to actors read from a comma-separated text file.

The embedding below mirrors the Python source function by function:
`dedup`, `ensure_roles_valid`, `parse_actors_csv` (split here into
`parseFields`, `splitNotify`, `buildRow`, `parseLine`, `parseLines`),
`json_get_any`, `Api360.create_shared_mailbox`, `Api360.set_access`,
`resolve_global_notify`, `ask`, and the orchestration in `main`.
HTTP traffic is modelled by passing the would-be responses in as data;
interactive input is modelled by a list of successive user entries
(an empty list meaning the user never supplies a usable value, where the
real loop would keep prompting).  JSON values are modelled by `PyVal`
(null, string or integer), enough to express Python truthiness as used by
the source.
-/

/-- Python's default whitespace set for `str.strip()`. -/
def isSpaceChar (c : Char) : Bool :=
  c == ' ' || c == '\t' || c == '\n' || c == '\r' || c == '\x0b' || c == '\x0c'

/-- Python `s.strip()`: drop leading and trailing whitespace. -/
def pyStrip (s : String) : String :=
  String.mk (((s.data.dropWhile isSpaceChar).reverse.dropWhile isSpaceChar).reverse)

/-- Loop of `pySplitChar`: split the remaining characters at every
occurrence of `sep`, `acc` holding the current field reversed. -/
def pySplitCharAux (sep : Char) : List Char → List Char → List String
  | [], acc => [String.mk acc.reverse]
  | c :: cs, acc =>
      if c == sep then String.mk acc.reverse :: pySplitCharAux sep cs []
      else pySplitCharAux sep cs (c :: acc)

/-- Python `s.split(sep)` for a one-character separator: every occurrence
separates two (possibly empty) fields, so `"".split(",") = [""]`. -/
def pySplitChar (sep : Char) (s : String) : List String :=
  pySplitCharAux sep s.data []

/-- Python `s.lower()` (ASCII case, which covers every literal the program
compares against). -/
def pyLower (s : String) : String :=
  String.mk (s.data.map Char.toLower)

/-- Python `s.startswith(p)`. -/
def pyStartsWith (s p : String) : Bool :=
  p.data.isPrefixOf s.data

/-- Python `c in s` for a single character `c`. -/
def pyContainsChar (s : String) (c : Char) : Bool :=
  s.data.contains c

/-- `VALID_NOTIFY = {"all", "delegates", "none"}` from the source
(modelled as a list; only membership is ever used). -/
def VALID_NOTIFY : List String := ["all", "delegates", "none"]

/-- One parsed row of the actor file: `(actor_id, roles, per_row_notify)`. -/
structure ActorAssignment where
  actorId : String
  roles : List String
  perRowNotify : Option String
deriving DecidableEq, Repr

/-- `dedup`'s loop, with the `seen` set modelled as the list of elements
added so far (only membership is tested). -/
def dedupAux (seen : List String) : List String → List String
  | [] => []
  | x :: xs => if x ∈ seen then dedupAux seen xs else x :: dedupAux (x :: seen) xs

/-- `dedup(items)`: keep the first occurrence of every element, in order. -/
def dedup (items : List String) : List String := dedupAux [] items

/-- `ensure_roles_valid(roles)` (source lines 94-101): dedup, owner subsumes
everything, and sender is appended when neither owner nor sender occurs. -/
def ensure_roles_valid (roles : List String) : List String :=
  let roles := dedup roles
  if "shared_mailbox_owner" ∈ roles then ["shared_mailbox_owner"]
  else if ¬ ("shared_mailbox_sender" ∈ roles ∨ "shared_mailbox_owner" ∈ roles) then
    roles ++ ["shared_mailbox_sender"]
  else roles

/-- Field extraction for one raw line (source lines 64-65): split on commas,
strip every field, drop the empty ones. -/
def parseFields (raw : String) : List String :=
  ((pySplitChar ',' raw).map pyStrip).filter (fun p => p != "")

/-- Source lines 71-76: if the last payload field (lower-cased) is a valid
notify literal, it becomes the per-row notify and the roles are the rest;
otherwise all payload fields are roles. -/
def splitNotify (payload : List String) : List String × Option String :=
  match payload.getLast? with
  | some last =>
      if pyLower last ∈ VALID_NOTIFY then (payload.dropLast, some (pyLower last))
      else (payload, Option.none)
  | Option.none => (payload, Option.none)

/-- Outcome of processing one physical line of the actor file. -/
inductive LineResult where
  | blank
  | skipped
  | accepted (a : ActorAssignment)
deriving DecidableEq, Repr

/-- Source lines 69-81 given actor id and non-empty payload: extract the
trailing notify literal, skip when no roles remain, dedup the roles. -/
def buildRow (actor_id : String) (payload : List String) : LineResult :=
  if (splitNotify payload).1 = [] then LineResult.skipped
  else
    LineResult.accepted
      ⟨actor_id, dedup (splitNotify payload).1, (splitNotify payload).2⟩

/-- Processing of one physical line (source lines 61-81): strip; blank and
`#`-comment lines are ignored; fewer than 2 non-empty fields means the line
is skipped with a warning; otherwise the first field is the actor id and the
rest is the payload. -/
def parseLine (line : String) : LineResult :=
  if pyStrip line = "" ∨ pyStartsWith (pyStrip line) "#" = true then LineResult.blank
  else
    match parseFields (pyStrip line) with
    | actor_id :: p :: ps => buildRow actor_id (p :: ps)
    | _ => LineResult.skipped

/-- The accepted assignment of a line result, if any. -/
def acceptedOf : LineResult → Option ActorAssignment
  | LineResult.accepted a => some a
  | _ => Option.none

/-- The `out` list accumulated by `parse_actors_csv`'s loop, in file order. -/
def parseLines (lines : List String) : List ActorAssignment :=
  lines.filterMap (fun l => acceptedOf (parseLine l))

/-- `parse_actors_csv` on the lines of an existing file (source lines
58-84): `Option.none` models the fatal `die` when no valid row remains. -/
def parse_actors_csv (lines : List String) : Option (List ActorAssignment) :=
  let out := parseLines lines
  if out = [] then Option.none else some out

/-- A JSON / Python value as far as this program inspects one:
null, a string, or an integer. -/
inductive PyVal where
  | none
  | str (s : String)
  | num (n : Int)
deriving DecidableEq, Repr

/-- Python truthiness on `PyVal`: `None`, `""` and `0` are falsy. -/
def PyVal.truthy : PyVal → Bool
  | PyVal.none => false
  | PyVal.str s => s != ""
  | PyVal.num n => n != 0

/-- Python `str()` on a `PyVal`. -/
def PyVal.toPyStr : PyVal → String
  | PyVal.none => "None"
  | PyVal.str s => s
  | PyVal.num n => toString n

/-- `json.dumps` on one value, as far as the diagnostic message needs it. -/
def PyVal.dump : PyVal → String
  | PyVal.none => "null"
  | PyVal.str s => "\"" ++ s ++ "\""
  | PyVal.num n => toString n

/-- `json.dumps` of a decoded JSON object (used in a diagnostic only). -/
def dumpDict (d : List (String × PyVal)) : String :=
  "\x7b" ++
    String.intercalate ", " (d.map (fun kv => "\"" ++ kv.1 ++ "\": " ++ kv.2.dump)) ++
  "\x7d"

/-- `k in d and d[k]`: lookup in a decoded JSON object (a Python dict,
modelled as an association list keyed by its first occurrence). -/
def dictGet (d : List (String × PyVal)) (k : String) : Option PyVal :=
  (d.find? (fun kv => kv.1 == k)).map Prod.snd

/-- `json_get_any(d, keys)` (source lines 49-53): the first value among
`keys` that is present and not in `(None, "")`; `None` (here
`Option.none`) otherwise. -/
def json_get_any (d : List (String × PyVal)) : List String → Option PyVal
  | [] => Option.none
  | k :: ks =>
      match dictGet d k with
      | some v =>
          if v ≠ PyVal.none ∧ v ≠ PyVal.str "" then some v else json_get_any d ks
      | Option.none => json_get_any d ks

/-- Modelled from the spec's words, for comparison with the code: the
decoded response body "contains, among the ordered candidate field names
(id, mailboxId, resourceId), at least one present non-empty value"
(present, not null and not the empty string). -/
def specHasUsableId (d : List (String × PyVal)) : Bool :=
  ["id", "mailboxId", "resourceId"].any (fun k =>
    match dictGet d k with
    | some v => decide (v ≠ PyVal.none ∧ v ≠ PyVal.str "")
    | Option.none => false)

/-- An HTTP response as the program inspects it: status code, decoded JSON
body when there is content (`Option.none` models empty `r.content`, in
which case the source substitutes `{}`), and the raw text. -/
structure HttpResponse where
  status : Nat
  body : Option (List (String × PyVal))
  text : String

/-- `r.json() if r.content else {}` (source line 119). -/
def respData (r : HttpResponse) : List (String × PyVal) :=
  match r.body with
  | some d => d
  | Option.none => []

/-- `Api360.create_shared_mailbox` (source lines 113-123), with the HTTP
response passed in: non-200 raises; otherwise the id is extracted with
`json_get_any` and a falsy result raises; success returns `str(id)`. -/
def create_shared_mailbox (r : HttpResponse) : Except String String :=
  if r.status ≠ 200 then
    Except.error ("Ошибка создания общего ящика: " ++ toString r.status ++ " " ++ r.text)
  else
    match json_get_any (respData r) ["id", "mailboxId", "resourceId"] with
    | some v =>
        if v.truthy then Except.ok v.toPyStr
        else
          Except.error
            ("Не удалось определить ID созданного ящика из ответа: " ++ dumpDict (respData r))
    | Option.none =>
        Except.error
          ("Не удалось определить ID созданного ящика из ответа: " ++ dumpDict (respData r))

/-- One access-assignment request as sent on the wire: actor, the
normalized role list in the body, and the notify query parameter. -/
structure SetCall where
  actorId : String
  roles : List String
  notify : String
deriving DecidableEq, Repr

/-- `Api360.set_access` (source lines 125-132): normalizes the roles,
sends the request, raises on a non-200 status.  Returns the request it
made together with the outcome. -/
def set_access (actor_id : String) (roles : List String) (notify : String)
    (r : HttpResponse) : SetCall × Except String Unit :=
  let nroles := ensure_roles_valid roles
  (⟨actor_id, nroles, notify⟩,
    if r.status ≠ 200 then
      Except.error
        (actor_id ++ ": ошибка назначения ролей (notify=" ++ notify ++ ") -> " ++
          toString r.status ++ " " ++ r.text)
    else Except.ok ())

/-- `ask(prompt, default)` (source lines 28-35) on one user entry:
strip, and substitute the default when the entry is empty. -/
def ask (userInput : String) (dflt : Option String) : String :=
  match dflt with
  | some d => if pyStrip userInput = "" then d else pyStrip userInput
  | _ => pyStrip userInput

/-- The actors-file path as computed at source line 163:
`ask("Путь к файлу actors.csv (Enter — ./actors.csv): ", default="actors.csv")`. -/
def mainActorsPath (userInput : String) : String :=
  ask userInput (some "actors.csv")

/-- The `NOTIFY` handling of `load_env` (source lines 41-46): strip and
lower-case; empty becomes absent; an invalid literal is discarded. -/
def load_env_notify (raw : String) : Option String :=
  if pyLower (pyStrip raw) = "" then Option.none
  else if pyLower (pyStrip raw) ∈ VALID_NOTIFY then some (pyLower (pyStrip raw))
  else Option.none

/-- The `while True` prompt of `resolve_global_notify` (source lines
139-143), on the list of successive user entries: empty input defaults to
"all"; an invalid entry re-prompts; `Option.none` models the user never
entering a valid value (the real loop keeps prompting). -/
def promptLoop : List String → Option String
  | [] => Option.none
  | s :: rest =>
      if pyLower (ask s (some "all")) ∈ VALID_NOTIFY then
        some (pyLower (ask s (some "all")))
      else promptLoop rest

/-- `resolve_global_notify(env_notify)` (source lines 134-143): a truthy
env value is returned as is, otherwise the interactive prompt decides. -/
def resolve_global_notify (env_notify : Option String) (inputs : List String) :
    Option String :=
  match env_notify with
  | some v => if v = "" then promptLoop inputs else some v
  | Option.none => promptLoop inputs

/-- `notify = per_row_notify or global_notify` (source line 169),
including Python's truthiness on the empty string. -/
def effective_notify (per_row : Option String) (g : String) : String :=
  match per_row with
  | some v => if v = "" then g else v
  | Option.none => g

/-- The assignment loop of `main` (source lines 167-176): one
`set_access` per parsed entry in order, counting successes and failures,
never aborting.  The HTTP responses to the successive calls are passed in
as a list (exhaustion yields no further calls; the theorems assume one
response per entry). -/
def runAssignments (g : String) : List ActorAssignment → List HttpResponse →
    List SetCall × Nat × Nat
  | [], _ => ([], 0, 0)
  | _ :: _, [] => ([], 0, 0)
  | e :: es, r :: rs =>
      let c := set_access e.actorId e.roles (effective_notify e.perRowNotify g) r
      let rest := runAssignments g es rs
      match c.2 with
      | Except.ok _ => (c.1 :: rest.1, rest.2.1 + 1, rest.2.2)
      | Except.error _ => (c.1 :: rest.1, rest.2.1, rest.2.2 + 1)

/-- The request `set_access` makes for one entry under session default `g`. -/
def mkCall (g : String) (a : ActorAssignment) : SetCall :=
  ⟨a.actorId, ensure_roles_valid a.roles, effective_notify a.perRowNotify g⟩

/-- All the run-specific data `main` consumes: the prompted fields, the
creation response, the path entry, the lines of the actor file, the raw
`NOTIFY` env value, the notify prompt entries, and the responses to the
successive `set_access` calls. -/
structure MainInput where
  email : String
  name : String
  description : String
  createResp : HttpResponse
  pathInput : String
  fileLines : List String
  notifyEnvRaw : String
  notifyInputs : List String
  setResps : List HttpResponse

/-- `main` (source lines 145-180) from the email prompt on: the result is
the list of `set_access` requests actually sent, together with either a
fatal error (exit code 1) or `(exit code, successes, failures)`.  File
reading is abstracted by `fileLines` being the contents of the file at
`mainActorsPath pathInput`. -/
def mainRun (inp : MainInput) : List SetCall × Except String (Nat × Nat × Nat) :=
  if ¬ pyContainsChar inp.email '@' = true then
    ([], Except.error "Email выглядит некорректно (нет '@'). Прерываю.")
  else if inp.name = "" then
    ([], Except.error "Имя (name) не может быть пустым.")
  else
    match create_shared_mailbox inp.createResp with
    | Except.error e => ([], Except.error e)
    | Except.ok _mailbox_id =>
        match parse_actors_csv inp.fileLines with
        | Option.none => ([], Except.error "actors.csv пуст или не содержит валидных строк")
        | some entries =>
            match resolve_global_notify (load_env_notify inp.notifyEnvRaw) inp.notifyInputs with
            | Option.none => ([], Except.error "значение notify не задано")
            | some g =>
                let r := runAssignments g entries inp.setResps
                (r.1, Except.ok (0, r.2.1, r.2.2))

/-! ### Properties of `dedup` -/

theorem mem_dedupAux (x : String) :
    ∀ (l seen : List String), x ∈ dedupAux seen l ↔ x ∈ l ∧ x ∉ seen := by
  intro l
  induction l with
  | nil => intro seen; simp [dedupAux]
  | cons a l ih =>
      intro seen
      by_cases ha : a ∈ seen
      · rw [show dedupAux seen (a :: l) = dedupAux seen l from by
          simp only [dedupAux, if_pos ha], ih]
        constructor
        · rintro ⟨hx, hns⟩; exact ⟨List.mem_cons_of_mem _ hx, hns⟩
        · rintro ⟨hx, hns⟩
          rcases List.mem_cons.mp hx with rfl | hx
          · exact absurd ha hns
          · exact ⟨hx, hns⟩
      · rw [show dedupAux seen (a :: l) = a :: dedupAux (a :: seen) l from by
          simp only [dedupAux, if_neg ha], List.mem_cons, ih]
        constructor
        · rintro (rfl | ⟨hx, hns⟩)
          · exact ⟨List.mem_cons_self x l, ha⟩
          · exact ⟨List.mem_cons_of_mem _ hx,
              fun hxs => hns (List.mem_cons_of_mem _ hxs)⟩
        · rintro ⟨hx, hns⟩
          rcases List.mem_cons.mp hx with rfl | hx
          · exact Or.inl rfl
          · by_cases hxa : x = a
            · exact Or.inl hxa
            · refine Or.inr ⟨hx, fun h => ?_⟩
              rcases List.mem_cons.mp h with h | h
              · exact hxa h
              · exact hns h

theorem mem_dedup {x : String} {l : List String} : x ∈ dedup l ↔ x ∈ l := by
  simp [dedup, mem_dedupAux]

theorem nodup_dedupAux : ∀ (l seen : List String), (dedupAux seen l).Nodup := by
  intro l
  induction l with
  | nil => intro seen; simp [dedupAux]
  | cons a l ih =>
      intro seen
      by_cases ha : a ∈ seen
      · simpa [dedupAux, if_pos ha] using ih seen
      · rw [show dedupAux seen (a :: l) = a :: dedupAux (a :: seen) l from by
          simp only [dedupAux, if_neg ha]]
        refine List.Nodup.cons ?_ (ih (a :: seen))
        intro hmem
        exact ((mem_dedupAux a l (a :: seen)).mp hmem).2 (List.mem_cons_self a seen)

theorem nodup_dedup (l : List String) : (dedup l).Nodup := nodup_dedupAux l []

theorem sublist_dedupAux : ∀ (l seen : List String), List.Sublist (dedupAux seen l) l := by
  intro l
  induction l with
  | nil => intro seen; simp [dedupAux]
  | cons a l ih =>
      intro seen
      by_cases ha : a ∈ seen
      · rw [show dedupAux seen (a :: l) = dedupAux seen l from by
          simp only [dedupAux, if_pos ha]]
        exact (ih seen).cons a
      · rw [show dedupAux seen (a :: l) = a :: dedupAux (a :: seen) l from by
          simp only [dedupAux, if_neg ha]]
        exact (ih (a :: seen)).cons₂ a

theorem sublist_dedup (l : List String) : List.Sublist (dedup l) l := sublist_dedupAux l []

theorem dedupAux_eq_self :
    ∀ (l seen : List String), l.Nodup → (∀ y ∈ l, y ∉ seen) → dedupAux seen l = l := by
  intro l
  induction l with
  | nil => intro seen _ _; simp [dedupAux]
  | cons a l ih =>
      intro seen hnd hout
      have ha : a ∉ seen := hout a (List.mem_cons_self a l)
      rw [show dedupAux seen (a :: l) = a :: dedupAux (a :: seen) l from by
        simp only [dedupAux, if_neg ha]]
      congr 1
      refine ih (a :: seen) (List.Nodup.of_cons hnd) ?_
      intro y hy hmem
      rcases List.mem_cons.mp hmem with rfl | hys
      · exact (List.nodup_cons.mp hnd).1 hy
      · exact hout y (List.mem_cons_of_mem _ hy) hys

theorem dedup_eq_self {l : List String} (h : l.Nodup) : dedup l = l :=
  dedupAux_eq_self l [] h (fun y _ hy => absurd hy (List.not_mem_nil y))

theorem dedup_dedup (l : List String) : dedup (dedup l) = dedup l :=
  dedup_eq_self (nodup_dedup l)

theorem dedupAux_cons_seen :
    ∀ (l : List String) (s : List String) (y : String),
      dedupAux (y :: s) l = (dedupAux s l).filter (fun z => z != y) := by
  intro l
  induction l with
  | nil => intro s y; simp [dedupAux]
  | cons x xs ih =>
      intro s y
      by_cases hxy : x = y
      · subst hxy
        have hx : x ∈ x :: s := List.mem_cons_self x s
        by_cases hs : x ∈ s
        · rw [show dedupAux (x :: s) (x :: xs) = dedupAux (x :: s) xs from by
            simp only [dedupAux, if_pos hx],
            show dedupAux s (x :: xs) = dedupAux s xs from by
            simp only [dedupAux, if_pos hs]]
          exact ih s x
        · rw [show dedupAux (x :: s) (x :: xs) = dedupAux (x :: s) xs from by
            simp only [dedupAux, if_pos hx],
            show dedupAux s (x :: xs) = x :: dedupAux (x :: s) xs from by
            simp only [dedupAux, if_neg hs]]
          rw [List.filter_cons]
          simp only [bne_self_eq_false, Bool.false_eq_true, if_false]
          rw [ih s x, List.filter_filter]
          exact (List.filter_congr (fun a _ => by rw [Bool.and_self])).symm
      · have hmem : (x ∈ y :: s) ↔ (x ∈ s) := by
          constructor
          · intro h
            rcases List.mem_cons.mp h with h | h
            · exact absurd h hxy
            · exact h
          · exact fun h => List.mem_cons_of_mem _ h
        by_cases hs : x ∈ s
        · rw [show dedupAux (y :: s) (x :: xs) = dedupAux (y :: s) xs from by
            simp only [dedupAux, if_pos (hmem.mpr hs)],
            show dedupAux s (x :: xs) = dedupAux s xs from by
            simp only [dedupAux, if_pos hs]]
          exact ih s y
        · rw [show dedupAux (y :: s) (x :: xs) = x :: dedupAux (x :: y :: s) xs from by
            simp only [dedupAux, if_neg (fun h => hs (hmem.mp h))],
            show dedupAux s (x :: xs) = x :: dedupAux (x :: s) xs from by
            simp only [dedupAux, if_neg hs]]
          rw [List.filter_cons]
          have hne : (x != y) = true := bne_iff_ne.mpr hxy
          rw [hne, if_pos rfl]
          congr 1
          rw [ih (y :: s) x, ih s y, ih s x, List.filter_filter, List.filter_filter]
          exact List.filter_congr (fun a _ => by rw [Bool.and_comm])

theorem dedup_cons (x : String) (l : List String) :
    dedup (x :: l) = x :: (dedup l).filter (fun z => z != x) := by
  show dedupAux [] (x :: l) = _
  rw [show dedupAux [] (x :: l) = x :: dedupAux [x] l from by
    simp only [dedupAux, if_neg (List.not_mem_nil x)]]
  congr 1
  exact dedupAux_cons_seen l [] x

/-! ### Claim theorems: role normalization -/

/-- Claim C1.  Role normalization: if the owner role is present the result
is exactly the singleton owner list; if neither owner nor sender is present
the result is the deduplicated input with the sender role appended exactly
once at the end; otherwise the deduplicated input is returned unchanged. -/
theorem ensure_roles_valid_cases :
    (∀ roles : List String, "shared_mailbox_owner" ∈ roles →
        ensure_roles_valid roles = ["shared_mailbox_owner"]) ∧
    (∀ roles : List String,
        "shared_mailbox_owner" ∉ roles → "shared_mailbox_sender" ∉ roles →
        ensure_roles_valid roles = dedup roles ++ ["shared_mailbox_sender"] ∧
        (dedup roles ++ ["shared_mailbox_sender"]).count "shared_mailbox_sender" = 1) ∧
    (∀ roles : List String,
        "shared_mailbox_owner" ∉ roles → "shared_mailbox_sender" ∈ roles →
        ensure_roles_valid roles = dedup roles) := by
  refine ⟨?_, ?_, ?_⟩
  · intro roles h
    have h' : "shared_mailbox_owner" ∈ dedup roles := mem_dedup.mpr h
    simp only [ensure_roles_valid, if_pos h']
  · intro roles ho hs
    have ho' : "shared_mailbox_owner" ∉ dedup roles := fun h => ho (mem_dedup.mp h)
    have hs' : "shared_mailbox_sender" ∉ dedup roles := fun h => hs (mem_dedup.mp h)
    have hcond : ¬ ("shared_mailbox_sender" ∈ dedup roles ∨
        "shared_mailbox_owner" ∈ dedup roles) := by
      rintro (h | h)
      · exact hs' h
      · exact ho' h
    constructor
    · simp only [ensure_roles_valid, if_neg ho', if_pos hcond]
    · rw [List.count_append]
      have h0 : (dedup roles).count "shared_mailbox_sender" = 0 :=
        List.count_eq_zero.mpr hs'
      simp [h0]
  · intro roles ho hs
    have ho' : "shared_mailbox_owner" ∉ dedup roles := fun h => ho (mem_dedup.mp h)
    have hs' : "shared_mailbox_sender" ∈ dedup roles := mem_dedup.mpr hs
    simp only [ensure_roles_valid, if_neg ho',
      if_neg (not_not_intro (Or.inl hs'))]

/-- Instantiations of `ensure_roles_valid_cases` at concrete role lists. -/
theorem ensure_roles_valid_cases_witness :
    ensure_roles_valid ["a", "shared_mailbox_owner"] = ["shared_mailbox_owner"] ∧
    (ensure_roles_valid ["a", "b"] = dedup ["a", "b"] ++ ["shared_mailbox_sender"] ∧
      (dedup ["a", "b"] ++ ["shared_mailbox_sender"]).count "shared_mailbox_sender" = 1) ∧
    ensure_roles_valid ["shared_mailbox_sender", "a"] = dedup ["shared_mailbox_sender", "a"] :=
  ⟨ensure_roles_valid_cases.1 _ (by decide),
   ensure_roles_valid_cases.2.1 _ (by decide) (by decide),
   ensure_roles_valid_cases.2.2 _ (by decide) (by decide)⟩

/-- Claim C10.  Normalizing twice equals normalizing once, so the
confirmation line printed after a successful assignment (which re-applies
`ensure_roles_valid` to the parsed roles) shows exactly the role list that
`set_access` sent. -/
theorem ensure_roles_valid_idempotent (roles : List String) :
    ensure_roles_valid (ensure_roles_valid roles) = ensure_roles_valid roles := by
  by_cases ho : "shared_mailbox_owner" ∈ dedup roles
  · have h1 : ensure_roles_valid roles = ["shared_mailbox_owner"] := by
      simp only [ensure_roles_valid, if_pos ho]
    rw [h1]
    decide
  · by_cases hs : "shared_mailbox_sender" ∈ dedup roles
    · have h1 : ensure_roles_valid roles = dedup roles := by
        simp only [ensure_roles_valid, if_neg ho,
          if_neg (not_not_intro (Or.inl hs))]
      rw [h1]
      have hs2 : "shared_mailbox_sender" ∈ dedup (dedup roles) := by
        rw [dedup_dedup]; exact hs
      have ho2 : "shared_mailbox_owner" ∉ dedup (dedup roles) := by
        rw [dedup_dedup]; exact ho
      simp only [ensure_roles_valid, if_neg ho2,
        if_neg (not_not_intro (Or.inl hs2))]
      exact dedup_dedup roles
    · have hcond : ¬ ("shared_mailbox_sender" ∈ dedup roles ∨
          "shared_mailbox_owner" ∈ dedup roles) := by
        rintro (h | h)
        · exact hs h
        · exact ho h
      have h1 : ensure_roles_valid roles = dedup roles ++ ["shared_mailbox_sender"] := by
        simp only [ensure_roles_valid, if_neg ho, if_pos hcond]
      rw [h1]
      have hnd : (dedup roles ++ ["shared_mailbox_sender"]).Nodup := by
        refine (nodup_dedup roles).append (by simp) ?_
        intro a ha hb
        rw [List.mem_singleton] at hb
        subst hb
        exact hs ha
      have hdd : dedup (dedup roles ++ ["shared_mailbox_sender"]) =
          dedup roles ++ ["shared_mailbox_sender"] := dedup_eq_self hnd
      have ho2 : "shared_mailbox_owner" ∉
          dedup (dedup roles ++ ["shared_mailbox_sender"]) := by
        rw [hdd]
        intro h
        rcases List.mem_append.mp h with h | h
        · exact ho h
        · rw [List.mem_singleton] at h
          exact absurd h (by decide)
      have hs2 : "shared_mailbox_sender" ∈
          dedup (dedup roles ++ ["shared_mailbox_sender"]) := by
        rw [hdd]
        exact List.mem_append_right _ (List.mem_singleton.mpr rfl)
      simp only [ensure_roles_valid, if_neg ho2,
        if_neg (not_not_intro (Or.inl hs2))]
      exact hdd

/-! ### Properties of the line parser -/

theorem splitNotify_fst_sublist (payload : List String) :
    List.Sublist (splitNotify payload).1 payload := by
  unfold splitNotify
  split
  · split
    · exact List.dropLast_sublist payload
    · exact List.Sublist.refl payload
  · exact List.Sublist.refl payload

theorem splitNotify_last {payload : List String} {last : String}
    (h : payload.getLast? = some last) :
    (pyLower last ∈ VALID_NOTIFY →
      (splitNotify payload).2 = some (pyLower last) ∧
      (splitNotify payload).1 = payload.dropLast) ∧
    (pyLower last ∉ VALID_NOTIFY →
      (splitNotify payload).2 = Option.none ∧ (splitNotify payload).1 = payload) := by
  unfold splitNotify
  split
  · rename_i last' heq
    rw [h] at heq
    injection heq with heq
    subst heq
    by_cases hm : pyLower last ∈ VALID_NOTIFY
    · rw [if_pos hm]
      exact ⟨fun _ => ⟨rfl, rfl⟩, fun hn => absurd hm hn⟩
    · rw [if_neg hm]
      exact ⟨fun hmm => absurd hmm hm, fun _ => ⟨rfl, rfl⟩⟩
  · rename_i heq
    rw [h] at heq
    exact Option.noConfusion heq

theorem parseLine_accepted {line : String} {a : ActorAssignment}
    (h : parseLine line = LineResult.accepted a) :
    ∃ actor payload, parseFields (pyStrip line) = actor :: payload ∧ payload ≠ [] ∧
      a.actorId = actor ∧ a.roles = dedup (splitNotify payload).1 ∧
      a.perRowNotify = (splitNotify payload).2 := by
  unfold parseLine at h
  split at h
  · exact LineResult.noConfusion h
  · split at h
    · rename_i actor p ps heq
      unfold buildRow at h
      split at h
      · exact LineResult.noConfusion h
      · injection h with h
        subst h
        exact ⟨actor, p :: ps, heq, by simp, rfl, rfl, rfl⟩
    · exact LineResult.noConfusion h

theorem parseLines_cons_accepted {l : String} {a : ActorAssignment}
    (h : parseLine l = LineResult.accepted a) (ls : List String) :
    parseLines (l :: ls) = a :: parseLines ls := by
  simp [parseLines, List.filterMap_cons, h, acceptedOf]

theorem parseLines_cons_not_accepted {l : String}
    (h : ∀ a, parseLine l ≠ LineResult.accepted a) (ls : List String) :
    parseLines (l :: ls) = parseLines ls := by
  have hnone : acceptedOf (parseLine l) = Option.none := by
    cases hl : parseLine l with
    | blank => rfl
    | skipped => rfl
    | accepted a => exact absurd hl (h a)
  simp [parseLines, List.filterMap_cons, hnone]

/-! ### Claim theorems: the parser -/

/-- Claim C2.  Per-row contract: every accepted line yields exactly one
assignment whose role list is the dedup (no duplicates, first occurrence
order — witnessed by the nub recursion of `dedup`) of the payload roles;
the per-row notify override is the lower-cased last field exactly when that
field matches a notify literal case-insensitively, in which case it is
removed from the roles; the output sequence is in file order. -/
theorem parse_row_contract :
    (∀ (line : String) (a : ActorAssignment), parseLine line = LineResult.accepted a →
      ∃ actor payload, parseFields (pyStrip line) = actor :: payload ∧ payload ≠ [] ∧
        a.actorId = actor ∧ a.roles.Nodup ∧ List.Sublist a.roles payload ∧
        (∀ last, payload.getLast? = some last →
          (pyLower last ∈ VALID_NOTIFY →
            a.perRowNotify = some (pyLower last) ∧ a.roles = dedup payload.dropLast) ∧
          (pyLower last ∉ VALID_NOTIFY →
            a.perRowNotify = Option.none ∧ a.roles = dedup payload))) ∧
    (∀ (x : String) (xs : List String),
        dedup (x :: xs) = x :: (dedup xs).filter (fun z => z != x)) ∧
    (∀ (l : String) (ls : List String) (a : ActorAssignment),
        parseLine l = LineResult.accepted a → parseLines (l :: ls) = a :: parseLines ls) ∧
    (∀ (l : String) (ls : List String),
        (∀ a, parseLine l ≠ LineResult.accepted a) → parseLines (l :: ls) = parseLines ls) ∧
    (∀ (lines : List String) (entries : List ActorAssignment),
        parse_actors_csv lines = some entries → entries = parseLines lines) := by
  refine ⟨?_, dedup_cons, fun l ls a h => parseLines_cons_accepted h ls,
    fun l ls h => parseLines_cons_not_accepted h ls, ?_⟩
  · intro line a h
    obtain ⟨actor, payload, hf, hpne, hid, hroles, hnotify⟩ := parseLine_accepted h
    refine ⟨actor, payload, hf, hpne, hid, ?_, ?_, ?_⟩
    · rw [hroles]; exact nodup_dedup _
    · rw [hroles]; exact (sublist_dedup _).trans (splitNotify_fst_sublist _)
    · intro last hlast
      have hsplit := splitNotify_last hlast
      constructor
      · intro hm
        exact ⟨by rw [hnotify, (hsplit.1 hm).1], by rw [hroles, (hsplit.1 hm).2]⟩
      · intro hm
        exact ⟨by rw [hnotify, (hsplit.2 hm).1], by rw [hroles, (hsplit.2 hm).2]⟩
  · intro lines entries h
    simp only [parse_actors_csv] at h
    by_cases he : parseLines lines = []
    · rw [if_pos he] at h; exact Option.noConfusion h
    · rw [if_neg he] at h; exact (Option.some.inj h).symm

/-- Instantiations of `parse_row_contract` at concrete lines:
a row with a duplicate role and a trailing `None` literal, a malformed
line, and a one-row file. -/
theorem parse_row_contract_witness :
    (∃ actor payload,
        parseFields (pyStrip "u1,a,b,a,None") = actor :: payload ∧ payload ≠ [] ∧
        (ActorAssignment.mk "u1" ["a", "b"] (some "none")).actorId = actor ∧
        (ActorAssignment.mk "u1" ["a", "b"] (some "none")).roles.Nodup ∧
        List.Sublist (ActorAssignment.mk "u1" ["a", "b"] (some "none")).roles payload ∧
        (∀ last, payload.getLast? = some last →
          (pyLower last ∈ VALID_NOTIFY →
            (ActorAssignment.mk "u1" ["a", "b"] (some "none")).perRowNotify =
              some (pyLower last) ∧
            (ActorAssignment.mk "u1" ["a", "b"] (some "none")).roles =
              dedup payload.dropLast) ∧
          (pyLower last ∉ VALID_NOTIFY →
            (ActorAssignment.mk "u1" ["a", "b"] (some "none")).perRowNotify = Option.none ∧
            (ActorAssignment.mk "u1" ["a", "b"] (some "none")).roles = dedup payload))) ∧
    parseLines ["u1,a,b,a,None", "badrow"] =
      ActorAssignment.mk "u1" ["a", "b"] (some "none") :: parseLines ["badrow"] ∧
    parseLines ["badrow", "u2,r"] = parseLines ["u2,r"] ∧
    [ActorAssignment.mk "u2" ["r"] Option.none] = parseLines ["u2,r"] :=
  ⟨parse_row_contract.1 "u1,a,b,a,None" _ (by decide),
   parse_row_contract.2.2.1 "u1,a,b,a,None" ["badrow"] _ (by decide),
   parse_row_contract.2.2.2.1 "badrow" ["u2,r"]
     (by
       intro a h
       rw [show parseLine "badrow" = LineResult.skipped from by decide] at h
       exact LineResult.noConfusion h),
   parse_row_contract.2.2.2.2 ["u2,r"] _ (by decide)⟩

/-- Claim C3.  Line tolerance and empty-result fatality: blank and comment
lines are ignored; a line with fewer than 2 non-empty fields, or with no
roles left after extracting the trailing notify literal, is skipped; a
skipped (or blank) line does not abort parsing of the other lines; and the
parse is fatal exactly when no assignment at all was produced. -/
theorem parse_tolerance_fatality :
    (∀ line : String, pyStrip line = "" ∨ pyStartsWith (pyStrip line) "#" = true →
        parseLine line = LineResult.blank) ∧
    (∀ (line : String) (rest : List String),
        parseLine line = LineResult.skipped ∨ parseLine line = LineResult.blank →
        parseLines (line :: rest) = parseLines rest) ∧
    (∀ line : String, ¬ (pyStrip line = "" ∨ pyStartsWith (pyStrip line) "#" = true) →
        (parseFields (pyStrip line)).length < 2 →
        parseLine line = LineResult.skipped) ∧
    (∀ (line actor : String) (payload : List String),
        ¬ (pyStrip line = "" ∨ pyStartsWith (pyStrip line) "#" = true) →
        parseFields (pyStrip line) = actor :: payload →
        (splitNotify payload).1 = [] →
        parseLine line = LineResult.skipped) ∧
    (∀ lines : List String,
        parse_actors_csv lines = Option.none ↔ parseLines lines = []) := by
  refine ⟨?_, ?_, ?_, ?_, ?_⟩
  · intro line h
    simp only [parseLine, if_pos h]
  · intro line rest h
    refine parseLines_cons_not_accepted ?_ rest
    intro a ha
    rcases h with h | h <;> rw [ha] at h <;> exact LineResult.noConfusion h
  · intro line h hlen
    simp only [parseLine, if_neg h]
    split
    · rename_i actor p ps heq
      rw [heq] at hlen
      simp only [List.length_cons] at hlen
      omega
    · rfl
  · intro line actor payload h hf hroles
    simp only [parseLine, if_neg h]
    split
    · rename_i actor' p ps heq
      rw [hf] at heq
      injection heq with h1 h2
      simp only [buildRow, ← h2, if_pos hroles]
    · rfl
  · intro lines
    simp only [parse_actors_csv]
    by_cases h : parseLines lines = [] <;> simp [h]

/-- Instantiations of `parse_tolerance_fatality`: a comment line, a
one-field line, a line whose only payload field is a notify literal, and a
file of only comments. -/
theorem parse_tolerance_fatality_witness :
    parseLine "# comment" = LineResult.blank ∧
    parseLines ["badrow", "u2,r"] = parseLines ["u2,r"] ∧
    parseLine "badrow" = LineResult.skipped ∧
    parseLine "u3,none" = LineResult.skipped ∧
    (parse_actors_csv ["# only comments"] = Option.none ↔
      parseLines ["# only comments"] = []) :=
  ⟨parse_tolerance_fatality.1 "# comment" (Or.inr (by decide)),
   parse_tolerance_fatality.2.1 "badrow" ["u2,r"]
     (Or.inl (by decide)),
   parse_tolerance_fatality.2.2.1 "badrow" (by decide) (by decide),
   parse_tolerance_fatality.2.2.2.1 "u3,none" "u3" ["none"] (by decide) (by decide)
     (by decide),
   parse_tolerance_fatality.2.2.2.2 ["# only comments"]⟩

/-- Claim C9.  Parsing is a deterministic function of the file's lines:
equal contents parse to equal ordered sequences. -/
theorem parse_deterministic (l1 l2 : List String) (h : l1 = l2) :
    parse_actors_csv l1 = parse_actors_csv l2 := by
  rw [h]

/-- Instantiation of `parse_deterministic` on a concrete file content. -/
theorem parse_deterministic_witness :
    parse_actors_csv ["u1,shared_mailbox_sender"] =
      parse_actors_csv ["u1,shared_mailbox_sender"] :=
  parse_deterministic ["u1,shared_mailbox_sender"] ["u1,shared_mailbox_sender"] rfl

/-! ### Notification resolution -/

theorem valid_notify_ne_empty : ∀ v ∈ VALID_NOTIFY, v ≠ "" := by decide

theorem load_env_notify_valid {raw v : String} (h : load_env_notify raw = some v) :
    v ∈ VALID_NOTIFY := by
  unfold load_env_notify at h
  split at h
  · exact Option.noConfusion h
  · split at h
    · rename_i hm
      injection h with h
      subst h
      exact hm
    · exact Option.noConfusion h

theorem promptLoop_valid :
    ∀ (inputs : List String) (g : String), promptLoop inputs = some g →
      g ∈ VALID_NOTIFY := by
  intro inputs
  induction inputs with
  | nil => intro g h; exact Option.noConfusion h
  | cons s rest ih =>
      intro g h
      simp only [promptLoop] at h
      by_cases hm : pyLower (ask s (some "all")) ∈ VALID_NOTIFY
      · rw [if_pos hm] at h
        injection h with h
        subst h
        exact hm
      · rw [if_neg hm] at h
        exact ih g h

theorem resolve_global_notify_valid {raw : String} {inputs : List String} {g : String}
    (h : resolve_global_notify (load_env_notify raw) inputs = some g) :
    g ∈ VALID_NOTIFY := by
  cases he : load_env_notify raw with
  | none =>
      rw [he] at h
      simp only [resolve_global_notify] at h
      exact promptLoop_valid _ _ h
  | some v =>
      rw [he] at h
      simp only [resolve_global_notify] at h
      have hv := load_env_notify_valid he
      rw [if_neg (valid_notify_ne_empty v hv)] at h
      injection h with h
      subst h
      exact hv

theorem splitNotify_snd_valid {payload : List String} {v : String}
    (h : (splitNotify payload).2 = some v) : v ∈ VALID_NOTIFY := by
  cases hg : payload.getLast? with
  | none =>
      simp only [splitNotify, hg] at h
      exact Option.noConfusion h
  | some last =>
      simp only [splitNotify, hg] at h
      by_cases hm : pyLower last ∈ VALID_NOTIFY
      · rw [if_pos hm] at h
        injection h with h
        subst h
        exact hm
      · rw [if_neg hm] at h
        exact Option.noConfusion h

theorem mem_parseLines {lines : List String} {a : ActorAssignment}
    (h : a ∈ parseLines lines) : ∃ line, parseLine line = LineResult.accepted a := by
  simp only [parseLines, List.mem_filterMap] at h
  obtain ⟨line, _, hline⟩ := h
  cases hp : parseLine line with
  | blank => rw [hp] at hline; exact Option.noConfusion hline
  | skipped => rw [hp] at hline; exact Option.noConfusion hline
  | accepted b =>
      rw [hp] at hline
      injection hline with hline
      exact ⟨line, by rw [hp, hline]⟩

theorem parse_actors_csv_some_eq {lines : List String} {entries : List ActorAssignment}
    (h : parse_actors_csv lines = some entries) : entries = parseLines lines := by
  simp only [parse_actors_csv] at h
  by_cases he : parseLines lines = []
  · rw [if_pos he] at h; exact Option.noConfusion h
  · rw [if_neg he] at h; exact (Option.some.inj h).symm

theorem perRowNotify_valid {lines : List String} {entries : List ActorAssignment}
    {a : ActorAssignment} (hp : parse_actors_csv lines = some entries) (ha : a ∈ entries)
    {v : String} (hv : a.perRowNotify = some v) : v ∈ VALID_NOTIFY := by
  rw [parse_actors_csv_some_eq hp] at ha
  obtain ⟨line, hline⟩ := mem_parseLines ha
  obtain ⟨actor, payload, _, _, _, _, hnot⟩ := parseLine_accepted hline
  rw [hnot] at hv
  exact splitNotify_snd_valid hv

/-- Claim C4.  Notification resolution: a validated config value is used
as is; empty interactive input defaults to "all"; the session default is
always a valid literal; the notify actually sent (`mkCall`) is the
effective notify; and for every parsed assignment the effective notify is
the row override when present, else the session default, and is always a
member of `VALID_NOTIFY`. -/
theorem notify_resolution :
    (∀ (raw : String) (inputs : List String) (v : String),
        load_env_notify raw = some v →
        resolve_global_notify (load_env_notify raw) inputs = some v) ∧
    (∀ rest : List String, promptLoop ("" :: rest) = some "all") ∧
    (∀ (raw : String) (inputs : List String) (g : String),
        resolve_global_notify (load_env_notify raw) inputs = some g →
        g ∈ VALID_NOTIFY) ∧
    (∀ (g : String) (a : ActorAssignment),
        (mkCall g a).notify = effective_notify a.perRowNotify g) ∧
    (∀ (lines : List String) (entries : List ActorAssignment) (a : ActorAssignment)
        (raw : String) (inputs : List String) (g : String),
        parse_actors_csv lines = some entries → a ∈ entries →
        resolve_global_notify (load_env_notify raw) inputs = some g →
        (∀ v, a.perRowNotify = some v → effective_notify a.perRowNotify g = v) ∧
        (a.perRowNotify = Option.none → effective_notify a.perRowNotify g = g) ∧
        effective_notify a.perRowNotify g ∈ VALID_NOTIFY) := by
  refine ⟨?_, ?_, ?_, fun g a => rfl, ?_⟩
  · intro raw inputs v h
    rw [h]
    simp only [resolve_global_notify]
    rw [if_neg (valid_notify_ne_empty v (load_env_notify_valid h))]
  · intro rest
    simp only [promptLoop]
    rw [if_pos (by decide)]
    decide
  · intro raw inputs g h
    exact resolve_global_notify_valid h
  · intro lines entries a raw inputs g hp ha hg
    refine ⟨?_, ?_, ?_⟩
    · intro v hv
      have hval := perRowNotify_valid hp ha hv
      rw [hv]
      simp only [effective_notify]
      rw [if_neg (valid_notify_ne_empty v hval)]
    · intro hv
      rw [hv]
      rfl
    · cases hv : a.perRowNotify with
      | none =>
          simp only [effective_notify]
          exact resolve_global_notify_valid hg
      | some v =>
          have hval := perRowNotify_valid hp ha hv
          simp only [effective_notify]
          rw [if_neg (valid_notify_ne_empty v hval)]
          exact hval

/-- Instantiations of `notify_resolution`: a config value "ALL", an empty
interactive entry, an interactively entered "delegates", and a parsed row
with a "none" override under session default "all". -/
theorem notify_resolution_witness :
    resolve_global_notify (load_env_notify " ALL ") ["x"] = some "all" ∧
    promptLoop ("" :: ["junk"]) = some "all" ∧
    "delegates" ∈ VALID_NOTIFY ∧
    (mkCall "all" (ActorAssignment.mk "u" ["r"] Option.none)).notify =
      effective_notify (ActorAssignment.mk "u" ["r"] Option.none).perRowNotify "all" ∧
    ((∀ v, (ActorAssignment.mk "u2" ["shared_mailbox_owner"] (some "none")).perRowNotify =
          some v →
        effective_notify
          (ActorAssignment.mk "u2" ["shared_mailbox_owner"] (some "none")).perRowNotify
          "all" = v) ∧
      ((ActorAssignment.mk "u2" ["shared_mailbox_owner"] (some "none")).perRowNotify =
          Option.none →
        effective_notify
          (ActorAssignment.mk "u2" ["shared_mailbox_owner"] (some "none")).perRowNotify
          "all" = "all") ∧
      effective_notify
        (ActorAssignment.mk "u2" ["shared_mailbox_owner"] (some "none")).perRowNotify
        "all" ∈ VALID_NOTIFY) :=
  ⟨notify_resolution.1 " ALL " ["x"] "all" (by decide),
   notify_resolution.2.1 ["junk"],
   notify_resolution.2.2.1 "" ["delegates"] "delegates" (by decide),
   notify_resolution.2.2.2.1 "all" (ActorAssignment.mk "u" ["r"] Option.none),
   notify_resolution.2.2.2.2 ["u2,shared_mailbox_owner,none"]
     [ActorAssignment.mk "u2" ["shared_mailbox_owner"] (some "none")]
     (ActorAssignment.mk "u2" ["shared_mailbox_owner"] (some "none"))
     "" [""] "all" (by decide) (by decide) (by decide)⟩

/-! ### The assignment loop and the orchestration -/

theorem runAssignments_spec (g : String) :
    ∀ (entries : List ActorAssignment) (resps : List HttpResponse),
      resps.length = entries.length →
      (runAssignments g entries resps).1 = entries.map (mkCall g) ∧
      (runAssignments g entries resps).2.1 = resps.countP (fun r => r.status == 200) ∧
      (runAssignments g entries resps).2.2 = resps.countP (fun r => r.status != 200) := by
  intro entries
  induction entries with
  | nil =>
      intro resps hlen
      cases resps with
      | nil => exact ⟨rfl, rfl, rfl⟩
      | cons r rs => simp at hlen
  | cons e es ih =>
      intro resps hlen
      cases resps with
      | nil => simp at hlen
      | cons r rs =>
          have hlen' : rs.length = es.length := by simpa using hlen
          obtain ⟨ih1, ih2, ih3⟩ := ih rs hlen'
          by_cases h200 : r.status = 200
          · have hbeq : (r.status == 200) = true := beq_iff_eq.mpr h200
            have hbne : (r.status != 200) = false := by simp [bne, hbeq]
            have hc : set_access e.actorId e.roles (effective_notify e.perRowNotify g) r =
                (mkCall g e, Except.ok ()) := by
              simp [set_access, h200, mkCall]
            simp only [runAssignments, hc]
            exact ⟨by simp [List.map_cons, ih1],
              by simp [List.countP_cons, hbeq, ih2],
              by simp [List.countP_cons, hbne, ih3]⟩
          · have hbeq : (r.status == 200) = false := beq_eq_false_iff_ne.mpr h200
            have hbne : (r.status != 200) = true := bne_iff_ne.mpr h200
            have hc : set_access e.actorId e.roles (effective_notify e.perRowNotify g) r =
                (mkCall g e,
                  Except.error (e.actorId ++ ": ошибка назначения ролей (notify=" ++
                    effective_notify e.perRowNotify g ++ ") -> " ++
                    toString r.status ++ " " ++ r.text)) := by
              simp [set_access, h200, mkCall]
            simp only [runAssignments, hc]
            exact ⟨by simp [List.map_cons, ih1],
              by simp [List.countP_cons, hbeq, ih2],
              by simp [List.countP_cons, hbne, ih3]⟩

theorem countP_status_split :
    ∀ resps : List HttpResponse,
      resps.countP (fun r => r.status == 200) +
        resps.countP (fun r => r.status != 200) = resps.length := by
  intro resps
  induction resps with
  | nil => rfl
  | cons r rs ih =>
      by_cases h200 : r.status = 200
      · have hbeq : (r.status == 200) = true := beq_iff_eq.mpr h200
        have hbne : (r.status != 200) = false := by simp [bne, hbeq]
        simp [List.countP_cons, hbeq, hbne]
        omega
      · have hbeq : (r.status == 200) = false := beq_eq_false_iff_ne.mpr h200
        have hbne : (r.status != 200) = true := bne_iff_ne.mpr h200
        simp [List.countP_cons, hbeq, hbne]
        omega

/-- Claim C5.  The assignment loop makes exactly one `set_access` call per
parsed entry, in order (`map`); a 200 response bumps the success counter
and anything else the failure counter while processing continues; the two
counters sum to the number of entries; and when the setup phase succeeded
`main` finishes with exit status 0 no matter how many calls failed. -/
theorem assignment_loop_tally (g : String) (entries : List ActorAssignment)
    (resps : List HttpResponse) (hlen : resps.length = entries.length) :
    (runAssignments g entries resps).1 = entries.map (mkCall g) ∧
    (runAssignments g entries resps).2.1 = resps.countP (fun r => r.status == 200) ∧
    (runAssignments g entries resps).2.2 = resps.countP (fun r => r.status != 200) ∧
    (runAssignments g entries resps).2.1 + (runAssignments g entries resps).2.2 =
      entries.length ∧
    (∀ inp : MainInput, pyContainsChar inp.email '@' = true → inp.name ≠ "" →
        (create_shared_mailbox inp.createResp).isOk = true →
        parse_actors_csv inp.fileLines = some entries →
        resolve_global_notify (load_env_notify inp.notifyEnvRaw) inp.notifyInputs =
          some g →
        inp.setResps = resps →
        mainRun inp =
          ((runAssignments g entries resps).1,
            Except.ok (0, (runAssignments g entries resps).2.1,
              (runAssignments g entries resps).2.2))) := by
  obtain ⟨h1, h2, h3⟩ := runAssignments_spec g entries resps hlen
  refine ⟨h1, h2, h3, ?_, ?_⟩
  · rw [h2, h3, countP_status_split, hlen]
  · intro inp hemail hname hcr hparse hres hresp
    obtain ⟨mid, hmid⟩ : ∃ mid, create_shared_mailbox inp.createResp = Except.ok mid := by
      cases hc : create_shared_mailbox inp.createResp with
      | ok v => exact ⟨v, rfl⟩
      | error e =>
          rw [hc] at hcr
          exact absurd hcr (by simp [Except.isOk, Except.toBool])
    simp only [mainRun]
    rw [if_neg (not_not_intro hemail), if_neg hname, hmid, hparse, hres, hresp]

/-- Instantiation of `assignment_loop_tally`, scenario E: three parsed
actors, the second `set_access` call answering 403, the others 200. -/
theorem assignment_loop_tally_witness :
    (runAssignments "all"
        [ActorAssignment.mk "u1" ["shared_mailbox_sender"] Option.none,
          ActorAssignment.mk "u2" ["shared_mailbox_owner"] (some "none"),
          ActorAssignment.mk "u3" ["r"] Option.none]
        [HttpResponse.mk 200 Option.none "",
          HttpResponse.mk 403 Option.none "Forbidden",
          HttpResponse.mk 200 Option.none ""]).2.1 +
      (runAssignments "all"
        [ActorAssignment.mk "u1" ["shared_mailbox_sender"] Option.none,
          ActorAssignment.mk "u2" ["shared_mailbox_owner"] (some "none"),
          ActorAssignment.mk "u3" ["r"] Option.none]
        [HttpResponse.mk 200 Option.none "",
          HttpResponse.mk 403 Option.none "Forbidden",
          HttpResponse.mk 200 Option.none ""]).2.2 = 3 ∧
    mainRun
      (MainInput.mk "box@example.com" "box" "desc"
        (HttpResponse.mk 200 (some [("id", PyVal.str "m1")]) "ok")
        ""
        ["u1,shared_mailbox_sender", "badrow", "u2,shared_mailbox_owner,none", "u3,r"]
        "" [""]
        [HttpResponse.mk 200 Option.none "",
          HttpResponse.mk 403 Option.none "Forbidden",
          HttpResponse.mk 200 Option.none ""]) =
      ((runAssignments "all"
          [ActorAssignment.mk "u1" ["shared_mailbox_sender"] Option.none,
            ActorAssignment.mk "u2" ["shared_mailbox_owner"] (some "none"),
            ActorAssignment.mk "u3" ["r"] Option.none]
          [HttpResponse.mk 200 Option.none "",
            HttpResponse.mk 403 Option.none "Forbidden",
            HttpResponse.mk 200 Option.none ""]).1,
        Except.ok (0,
          (runAssignments "all"
            [ActorAssignment.mk "u1" ["shared_mailbox_sender"] Option.none,
              ActorAssignment.mk "u2" ["shared_mailbox_owner"] (some "none"),
              ActorAssignment.mk "u3" ["r"] Option.none]
            [HttpResponse.mk 200 Option.none "",
              HttpResponse.mk 403 Option.none "Forbidden",
              HttpResponse.mk 200 Option.none ""]).2.1,
          (runAssignments "all"
            [ActorAssignment.mk "u1" ["shared_mailbox_sender"] Option.none,
              ActorAssignment.mk "u2" ["shared_mailbox_owner"] (some "none"),
              ActorAssignment.mk "u3" ["r"] Option.none]
            [HttpResponse.mk 200 Option.none "",
              HttpResponse.mk 403 Option.none "Forbidden",
              HttpResponse.mk 200 Option.none ""]).2.2)) :=
  ⟨(assignment_loop_tally "all"
      [ActorAssignment.mk "u1" ["shared_mailbox_sender"] Option.none,
        ActorAssignment.mk "u2" ["shared_mailbox_owner"] (some "none"),
        ActorAssignment.mk "u3" ["r"] Option.none]
      [HttpResponse.mk 200 Option.none "",
        HttpResponse.mk 403 Option.none "Forbidden",
        HttpResponse.mk 200 Option.none ""] (by decide)).2.2.2.1,
   (assignment_loop_tally "all"
      [ActorAssignment.mk "u1" ["shared_mailbox_sender"] Option.none,
        ActorAssignment.mk "u2" ["shared_mailbox_owner"] (some "none"),
        ActorAssignment.mk "u3" ["r"] Option.none]
      [HttpResponse.mk 200 Option.none "",
        HttpResponse.mk 403 Option.none "Forbidden",
        HttpResponse.mk 200 Option.none ""] (by decide)).2.2.2.2 _
     (by decide) (by decide) (by decide) (by decide) (by decide) rfl⟩

/-! ### Claim theorems: mailbox creation and orchestration -/

/-- Claim C6, counterexample.  The claim "the operation succeeds if and
only if the status is 200 and the body contains, among the candidate
fields, at least one present non-empty value" fails on the code: for
status 200 with body containing id = 0 and mailboxId = 5, a present
non-empty value exists but `create_shared_mailbox` raises, because
`json_get_any` selects the first value not in (None, "") — here 0 — and
the subsequent Python truthiness check rejects 0. -/
theorem create_mailbox_claim_false :
    ¬ (∀ r : HttpResponse, (create_shared_mailbox r).isOk = true ↔
        (r.status = 200 ∧ specHasUsableId (respData r) = true)) := by
  intro h
  have h2 := (h (HttpResponse.mk 200
    (some [("id", PyVal.num 0), ("mailboxId", PyVal.num 5)]) "")).mpr (by decide)
  exact absurd h2 (by decide)

/-- Claim C6, amended.  `create_shared_mailbox` returns an id exactly when
the status is 200 and `json_get_any` over (id, mailboxId, resourceId)
yields a truthy value (not null, not "", and not the number 0), the
returned string being `str` of that value; a non-200 status fails with a
diagnostic carrying the status code and raw body; a 200 response whose
`json_get_any` result is absent or falsy fails with a diagnostic carrying
the dumped decoded body. -/
theorem create_mailbox_contract :
    (∀ (r : HttpResponse) (s : String), create_shared_mailbox r = Except.ok s ↔
        (r.status = 200 ∧ ∃ v,
          json_get_any (respData r) ["id", "mailboxId", "resourceId"] = some v ∧
          v.truthy = true ∧ s = v.toPyStr)) ∧
    (∀ r : HttpResponse, r.status ≠ 200 →
        create_shared_mailbox r =
          Except.error ("Ошибка создания общего ящика: " ++ toString r.status ++
            " " ++ r.text)) ∧
    (∀ r : HttpResponse, r.status = 200 →
        (json_get_any (respData r) ["id", "mailboxId", "resourceId"] = Option.none ∨
          (∃ v, json_get_any (respData r) ["id", "mailboxId", "resourceId"] = some v ∧
            v.truthy = false)) →
        create_shared_mailbox r =
          Except.error ("Не удалось определить ID созданного ящика из ответа: " ++
            dumpDict (respData r))) := by
  refine ⟨?_, ?_, ?_⟩
  · intro r s
    constructor
    · intro h
      by_cases h200 : r.status = 200
      · rw [show create_shared_mailbox r =
            (match json_get_any (respData r) ["id", "mailboxId", "resourceId"] with
              | some v =>
                  if v.truthy then Except.ok v.toPyStr
                  else Except.error
                    ("Не удалось определить ID созданного ящика из ответа: " ++
                      dumpDict (respData r))
              | Option.none => Except.error
                  ("Не удалось определить ID созданного ящика из ответа: " ++
                    dumpDict (respData r))) from by
          simp only [create_shared_mailbox, if_neg (not_not_intro h200)]] at h
        cases hj : json_get_any (respData r) ["id", "mailboxId", "resourceId"] with
        | none => rw [hj] at h; exact Except.noConfusion h
        | some v =>
            rw [hj] at h
            have h' : (if v.truthy = true then Except.ok v.toPyStr
                else (Except.error
                  ("Не удалось определить ID созданного ящика из ответа: " ++
                    dumpDict (respData r)) : Except String String)) = Except.ok s := h
            by_cases ht : v.truthy = true
            · rw [if_pos ht] at h'
              injection h' with h'
              exact ⟨h200, v, rfl, ht, h'.symm⟩
            · rw [if_neg ht] at h'
              exact Except.noConfusion h'
      · rw [show create_shared_mailbox r =
            Except.error ("Ошибка создания общего ящика: " ++ toString r.status ++
              " " ++ r.text) from by
          simp only [create_shared_mailbox, if_pos h200]] at h
        exact Except.noConfusion h
    · rintro ⟨h200, v, hj, ht, hs⟩
      simp only [create_shared_mailbox, if_neg (not_not_intro h200), hj]
      rw [if_pos ht, hs]
  · intro r h
    simp only [create_shared_mailbox, if_pos h]
  · intro r h200 hcase
    simp only [create_shared_mailbox, if_neg (not_not_intro h200)]
    rcases hcase with hj | ⟨v, hj, ht⟩
    · simp only [hj]
    · simp only [hj]
      rw [if_neg (by simp [ht])]

/-- Instantiations of `create_mailbox_contract`: a successful creation, a
403 failure, and a 200 response whose only id candidate is falsy. -/
theorem create_mailbox_contract_witness :
    create_shared_mailbox (HttpResponse.mk 200 (some [("id", PyVal.str "m1")]) "ok") =
      Except.ok "m1" ∧
    create_shared_mailbox (HttpResponse.mk 403 Option.none "Forbidden") =
      Except.error ("Ошибка создания общего ящика: " ++ toString (403 : Nat) ++
        " " ++ "Forbidden") ∧
    create_shared_mailbox (HttpResponse.mk 200 (some [("id", PyVal.num 0)]) "") =
      Except.error ("Не удалось определить ID созданного ящика из ответа: " ++
        dumpDict (respData (HttpResponse.mk 200 (some [("id", PyVal.num 0)]) ""))) :=
  ⟨(create_mailbox_contract.1 _ "m1").mpr
      ⟨rfl, PyVal.str "m1", by decide, by decide, by decide⟩,
   create_mailbox_contract.2.1 _ (by decide),
   create_mailbox_contract.2.2 _ rfl (Or.inr ⟨PyVal.num 0, by decide, by decide⟩)⟩

/-- Claim C7.  When the creation response has a non-200 status the run is
fatal (no success outcome) and no `set_access` call is ever made: the call
trace of `mainRun` is empty. -/
theorem no_assignment_after_failed_create (inp : MainInput)
    (h : inp.createResp.status ≠ 200) :
    (mainRun inp).1 = [] ∧ (mainRun inp).2.isOk = false := by
  simp only [mainRun]
  by_cases he : pyContainsChar inp.email '@' = true
  · rw [if_neg (not_not_intro he)]
    by_cases hn : inp.name = ""
    · rw [if_pos hn]
      exact ⟨rfl, rfl⟩
    · rw [if_neg hn]
      rw [show create_shared_mailbox inp.createResp =
          Except.error ("Ошибка создания общего ящика: " ++
            toString inp.createResp.status ++ " " ++ inp.createResp.text) from by
        simp only [create_shared_mailbox, if_pos h]]
      exact ⟨rfl, rfl⟩
  · rw [if_pos he]
    exact ⟨rfl, rfl⟩

/-- Instantiation of `no_assignment_after_failed_create`, scenario D:
creation answers 403 and no assignment request is made. -/
theorem no_assignment_after_failed_create_witness :
    (mainRun (MainInput.mk "box@example.com" "box" "desc"
        (HttpResponse.mk 403 Option.none "Forbidden") ""
        ["u1,shared_mailbox_sender"] "" [""]
        [HttpResponse.mk 200 Option.none ""])).1 = [] ∧
    (mainRun (MainInput.mk "box@example.com" "box" "desc"
        (HttpResponse.mk 403 Option.none "Forbidden") ""
        ["u1,shared_mailbox_sender"] "" [""]
        [HttpResponse.mk 200 Option.none ""])).2.isOk = false :=
  no_assignment_after_failed_create _ (by decide)

/-- Claim C8, counterexample.  On empty input at the actor-file prompt the
path used is not the string "./actors.csv": the default passed to `ask` at
source line 163 is the string "actors.csv" (the prompt text merely displays
"./actors.csv"). -/
theorem default_actors_path_claim_false : ¬ (mainActorsPath "" = "./actors.csv") := by
  decide

/-- Claim C8, amended.  When the user enters nothing (empty after
stripping) at the actor-list prompt, the path used for parsing is the
string "actors.csv" — the same relative file the displayed default
"./actors.csv" denotes, but without the "./" prefix. -/
theorem default_actors_path (input : String) (h : pyStrip input = "") :
    mainActorsPath input = "actors.csv" := by
  simp only [mainActorsPath, ask]
  rw [if_pos h]

/-- Instantiation of `default_actors_path` at the empty entry and at a
whitespace-only entry. -/
theorem default_actors_path_witness :
    mainActorsPath "" = "actors.csv" ∧ mainActorsPath "  " = "actors.csv" :=
  ⟨default_actors_path "" (by decide), default_actors_path "  " (by decide)⟩
